import Mathlib

/-!
Shallow embedding of the telemetry reconciliation engine of the
range-herd-frontend repository (a React dashboard for LoRa cattle
tracking), together with proofs about the merge-dedupe-order pipeline
(`loadLatestPoints`), the motion classifier (`motionByDevice`), the
haversine distance utility, and the reconnecting WebSocket transport
(`useReconnectingWebSocket`).

Conventions of the embedding:
* JavaScript numbers used as coordinates are modelled by a type
  parameter `α`; the number-to-string conversion used when the merge
  builds its deduplication key string is a parameter `numStr : α → String`.
  Real-valued claims about the classifier instantiate `α := ℝ`.
* `new Date(t).getTime()` is modelled by a parameter
  `parseD : String → Option Int` (milliseconds on success, `none` for an
  invalid date, which the source coerces to `0` via its `Number.isFinite`
  check in `toMs`).
* JavaScript string falsiness (`""` and `undefined` are falsy) is
  modelled by `jsOrStr`.
* `Array.prototype.sort` with the comparator
  `(a, b) => toMs(a.ts || a.receivedAt) - toMs(b.ts || b.receivedAt)`
  is a stable ascending sort by parsed timestamp; it is modelled by
  `List.insertionSort`, which is stable with the reflexive total
  relation used here.
* `Array.prototype.slice(-n)` (keep the last `n` elements) is modelled
  by `sliceLast`.
* The telemetry payload fields that no modelled computation ever reads
  (`batteryPct`, `batteryV`, `rssi`, `snr`, `temperatureC`, `altM`) are
  omitted from `LivePoint`; they ride through the pipeline inside the
  point object untouched and do not appear in any key, comparator or
  classifier expression.
-/

namespace RangeHerd

/-- Motion label per device, mirroring the union type
`"moving" | "stationary" | "unknown"` in `Dashboard.tsx`. -/
inductive MotionState where
  | moving
  | stationary
  | unknown
  deriving DecidableEq

/-- Connection status of the streaming transport, mirroring
`type WsStatus = "connecting" | "connected" | "reconnecting" | "closed" | "error"`. -/
inductive WsStatus where
  | connecting
  | connected
  | reconnecting
  | closed
  | error
  deriving DecidableEq

/-- One telemetry sample (`type LivePoint` in `Dashboard.tsx`), restricted
to the fields read by the merge pipeline, the classifier and the
transport: `deviceId`, the two timestamp strings `ts` / `receivedAt`,
the coordinates and the frame counter `fCnt`. -/
structure LivePoint (α : Type) where
  deviceId : String
  ts : Option String
  receivedAt : Option String
  lat : α
  lon : α
  fCnt : Option Int
  deriving DecidableEq

/-- JavaScript `a || b` on string-or-undefined values: `undefined` and the
empty string are falsy. -/
def jsOrStr (a b : Option String) : Option String :=
  match a with
  | some s => if s = "" then b else some s
  | none => b

/-- The raw timestamp string of a point, `x.ts || x.receivedAt`. -/
def tsRaw {α : Type} (p : LivePoint α) : Option String :=
  jsOrStr p.ts p.receivedAt

/-- `x.ts || x.receivedAt || ""`: the timestamp component of the
deduplication key. -/
def tsStr {α : Type} (p : LivePoint α) : String :=
  (tsRaw p).getD ""

/-- The source's `toMs` (`Dashboard.tsx` lines 106-109): parse the
timestamp string to epoch milliseconds, with a missing or empty string
and an unparseable date both coerced to `0` instead of erroring. -/
def toMs (parseD : String → Option Int) : Option String → Int
  | none => 0
  | some s => if s = "" then 0 else (parseD s).getD 0

/-- Parsed timestamp of a point, `toMs(x.ts || x.receivedAt)`. -/
def tsOf {α : Type} (parseD : String → Option Int) (p : LivePoint α) : Int :=
  toMs parseD (tsRaw p)

/-- The frame-counter component `${x.fCnt ?? ""}` of the deduplication
key. -/
def fCntStr {α : Type} (p : LivePoint α) : String :=
  match p.fCnt with
  | some n => toString n
  | none => ""

/-- The deduplication key string built by the merge loop
(`Dashboard.tsx` line 244):
`` `${x.ts || x.receivedAt || ""}-${x.lat}-${x.lon}-${x.fCnt ?? ""}` ``. -/
def dedupKey {α : Type} (numStr : α → String) (p : LivePoint α) : String :=
  tsStr p ++ "-" ++ numStr p.lat ++ "-" ++ numStr p.lon ++ "-" ++ fCntStr p

/-- The first-seen-wins deduplication loop of `loadLatestPoints`
(`Dashboard.tsx` lines 241-248), with the `seen` set of already kept
keys made explicit as an accumulator list. -/
def dedupAcc {π κ : Type} [DecidableEq κ] (key : π → κ) : List κ → List π → List π
  | _, [] => []
  | seen, x :: xs =>
    if key x ∈ seen then dedupAcc key seen xs
    else x :: dedupAcc key (key x :: seen) xs

/-- Deduplication starting from an empty `seen` set. -/
def dedupePoints {π κ : Type} [DecidableEq κ] (key : π → κ) (l : List π) : List π :=
  dedupAcc key [] l

/-- `Array.prototype.slice(-n)` for `n > 0`: the last `min n l.length`
elements of the array. -/
def sliceLast {π : Type} (n : Nat) (l : List π) : List π :=
  l.drop (l.length - n)

/-- The stable ascending sort by parsed timestamp used both by the merge
(`Dashboard.tsx` line 250) and by the classifier (line 511). -/
def sortByTs {α : Type} (parseD : String → Option Int) (l : List (LivePoint α)) :
    List (LivePoint α) :=
  List.insertionSort (fun a b => tsOf parseD a ≤ tsOf parseD b) l

/-- The per-device merge operation of `loadLatestPoints`
(`Dashboard.tsx` lines 238-251): concatenate the incoming batch onto
the existing history, drop duplicate key strings keeping the first
occurrence, sort ascending by parsed timestamp (stable), and keep the
last 120 points. -/
def mergePoints {α : Type} (numStr : α → String) (parseD : String → Option Int)
    (existing pts : List (LivePoint α)) : List (LivePoint α) :=
  sliceLast 120 (sortByTs parseD (dedupePoints (dedupKey numStr) (existing ++ pts)))

/-- Structural recursion engine for `dedupeByFirst`, with the list
length as fuel so that the definition reduces inside the kernel. -/
def dedupeByFirstAux {π κ : Type} [DecidableEq κ] (key : π → κ) : Nat → List π → List π
  | _, [] => []
  | 0, _ :: _ => []
  | n + 1, x :: xs =>
    x :: dedupeByFirstAux key n (xs.filter (fun y => decide (key y ≠ key x)))

/-- Declarative first-occurrence-wins deduplication, as the spec phrases
it: keep each element and erase every later element with the same key
(see `dedupeByFirst_cons` for the defining equation). -/
def dedupeByFirst {π κ : Type} [DecidableEq κ] (key : π → κ) (l : List π) : List π :=
  dedupeByFirstAux key l.length l

/-- The identity tuple the specification names for deduplication:
(timestamp string, lat, lon, frameCounter with a missing frameCounter
as the empty string). -/
def identityTuple {α : Type} (p : LivePoint α) : String × α × α × String :=
  (tsStr p, p.lat, p.lon, fCntStr p)

/-- The merge pipeline as the specification of claim C1 words it, with
deduplication by the identity tuple instead of by the concatenated key
string. -/
def mergeSpecTuple {α : Type} [DecidableEq α] (parseD : String → Option Int)
    (existing pts : List (LivePoint α)) : List (LivePoint α) :=
  sliceLast 120 (sortByTs parseD (dedupeByFirst identityTuple (existing ++ pts)))

/-- The merge pipeline as the specification words it, but deduplicating
by the concatenated key string the code actually builds. -/
def mergeSpecKeyString {α : Type} (numStr : α → String) (parseD : String → Option Int)
    (existing pts : List (LivePoint α)) : List (LivePoint α) :=
  sliceLast 120 (sortByTs parseD (dedupeByFirst (dedupKey numStr) (existing ++ pts)))

/-- A device history after a finite sequence of merges, starting from the
empty history (a device's history is created empty on first contact). -/
def runMerges {α : Type} (numStr : α → String) (parseD : String → Option Int)
    (batches : List (List (LivePoint α))) : List (LivePoint α) :=
  batches.foldl (mergePoints numStr parseD) []

/-! Motion classifier constants, `Dashboard.tsx` lines 101-104. -/

/-- Movement distance threshold in meters (`MOVEMENT_THRESHOLD_M = 25`). -/
noncomputable def MOVEMENT_THRESHOLD_M : ℝ := 25

/-- Recency window in milliseconds (`RECENT_WINDOW_MS = 5 * 60_000`). -/
def RECENT_WINDOW_MS : Int := 5 * 60000

/-- Maximum allowed time gap in milliseconds (`MAX_GAP_MS = 90_000`). -/
def MAX_GAP_MS : Int := 90000

/-- Minimum speed threshold in meters per second (`MIN_SPEED_MPS = 0.6`). -/
noncomputable def MIN_SPEED_MPS : ℝ := 0.6

/-- A latitude/longitude pair, the argument shape of `haversineMeters`. -/
structure Coord where
  lat : ℝ
  lon : ℝ

/-- The haversine great-circle distance utility (`Dashboard.tsx` lines
111-124), translated term by term: `R = 6371000`, degree-to-radian
conversion, the haversine formula, and
`2 * R * Math.asin(Math.min(1, Math.sqrt(h)))`. -/
noncomputable def haversineMeters (a b : Coord) : ℝ :=
  let R : ℝ := 6371000
  let toRad : ℝ → ℝ := fun v => v * Real.pi / 180
  let dLat := toRad (b.lat - a.lat)
  let dLon := toRad (b.lon - a.lon)
  let lat1 := toRad a.lat
  let lat2 := toRad b.lat
  let sinDLat := Real.sin (dLat / 2)
  let sinDLon := Real.sin (dLon / 2)
  let h := sinDLat * sinDLat + Real.cos lat1 * Real.cos lat2 * (sinDLon * sinDLon)
  2 * R * Real.arcsin (min 1 (Real.sqrt h))

/-- Default point used to express the always-in-bounds array indexing
`sorted[sorted.length - 3]` of the classifier with `List.getD`. -/
def dfltPoint : LivePoint ℝ :=
  { deviceId := "", ts := none, receivedAt := none, lat := 0, lon := 0, fCnt := none }

/-- The per-device motion classifier, the loop body of `motionByDevice`
(`Dashboard.tsx` lines 505-551): fewer than three points is `unknown`;
the three most recent points of the sorted history are examined; a zero
(missing or unparseable) timestamp among them is `unknown`; a stale
most-recent point is `stationary`; an excessive or non-positive time
gap is `stationary`; otherwise the device is `moving` exactly when both
segment distances exceed `MOVEMENT_THRESHOLD_M` and both segment speeds
exceed `MIN_SPEED_MPS`. -/
noncomputable def motionForPts (parseD : String → Option Int) (now : Int)
    (pts : List (LivePoint ℝ)) : MotionState :=
  if pts.length < 3 then .unknown else
  let sorted := sortByTs parseD pts
  let p1 := sorted.getD (sorted.length - 3) dfltPoint
  let p2 := sorted.getD (sorted.length - 2) dfltPoint
  let p3 := sorted.getD (sorted.length - 1) dfltPoint
  let t1 := tsOf parseD p1
  let t2 := tsOf parseD p2
  let t3 := tsOf parseD p3
  if t1 = 0 ∨ t2 = 0 ∨ t3 = 0 then .unknown else
  if now - t3 > RECENT_WINDOW_MS then .stationary else
  let dt12 := t2 - t1
  let dt23 := t3 - t2
  if dt12 > MAX_GAP_MS ∨ dt23 > MAX_GAP_MS ∨ dt12 ≤ 0 ∨ dt23 ≤ 0 then .stationary else
  let d12 := haversineMeters ⟨p1.lat, p1.lon⟩ ⟨p2.lat, p2.lon⟩
  let d23 := haversineMeters ⟨p2.lat, p2.lon⟩ ⟨p3.lat, p3.lon⟩
  let v12 := d12 / ((dt12 : ℝ) / 1000)
  let v23 := d23 / ((dt23 : ℝ) / 1000)
  if d12 > MOVEMENT_THRESHOLD_M ∧ d23 > MOVEMENT_THRESHOLD_M ∧
      v12 > MIN_SPEED_MPS ∧ v23 > MIN_SPEED_MPS then .moving else .stationary

/-! Resilient transport (`useReconnectingWebSocket`, `Dashboard.tsx`
lines 1564-1623). -/

/-- Retry budget (`WS_MAX_RETRIES = 10`). -/
def WS_MAX_RETRIES : Nat := 10

/-- Base reconnect delay in milliseconds (`WS_BASE_DELAY_MS = 1000`). -/
def WS_BASE_DELAY_MS : Nat := 1000

/-- The transport state of a mounted `useReconnectingWebSocket` hook:
the retry counter ref, the last emitted status, and the delay of the
reconnect timer scheduled by the most recent event (`none` when that
event scheduled no timer). -/
structure TransportState where
  retryCount : Nat
  status : WsStatus
  pendingDelay : Option Nat
  deriving DecidableEq

/-- Initial state: the mount effect calls `connect()` with a zero retry
counter, which emits `connecting` and schedules no timer. -/
def initialTransport : TransportState :=
  { retryCount := 0, status := .connecting, pendingDelay := none }

/-- The `ws.onclose` handler (lines 1599-1609): while retries remain,
compute `min(WS_BASE_DELAY_MS * 2 ** retryCount, 30000)`, increment the
counter, emit `reconnecting` and schedule exactly one reconnect timer;
once the budget is exhausted, emit the terminal `closed` and schedule
nothing. -/
def onClose (s : TransportState) : TransportState :=
  if s.retryCount < WS_MAX_RETRIES then
    { retryCount := s.retryCount + 1
      status := .reconnecting
      pendingDelay := some (min (WS_BASE_DELAY_MS * 2 ^ s.retryCount) 30000) }
  else
    { s with status := .closed, pendingDelay := none }

/-- The `ws.onopen` handler (lines 1582-1586): reset the retry counter
and emit `connected`; the timer that produced this attempt has fired
and no new one is scheduled. -/
def onOpen (s : TransportState) : TransportState :=
  { s with retryCount := 0, status := .connected, pendingDelay := none }

/-! Frame dispatch of the transport session. -/

/-- Parsed inbound frames (`type UplinkMessage` in `Dashboard.tsx`). -/
inductive UplinkMsg (α : Type) where
  | uplink (data : LivePoint α)
  | alert
  | connected
  | hello
  deriving DecidableEq

/-- Session state observable from the dashboard: the connection status
and the per-device point histories. -/
structure SessionState (α : Type) where
  wsStatus : WsStatus
  pointsByDevice : List (String × List (LivePoint α))
  deriving DecidableEq

/-- Lookup of `prev[deviceId] ?? []`. -/
def getDevice {α : Type} (m : List (String × List (LivePoint α))) (id : String) :
    List (LivePoint α) :=
  (m.lookup id).getD []

/-- The spread-update `{ ...prev, [deviceId]: v }`: replace the entry if
present, otherwise add it. -/
def setDevice {α : Type} (m : List (String × List (LivePoint α))) (id : String)
    (v : List (LivePoint α)) : List (String × List (LivePoint α)) :=
  if (m.lookup id).isSome then
    m.map (fun e => if e.1 = id then (id, v) else e)
  else
    m ++ [(id, v)]

/-- The dashboard's `handleMessage` callback (`Dashboard.tsx` lines
1696-1708): an `uplink` frame with a truthy `deviceId` appends the
point to that device's history and keeps the last 100 points; an
`alert` frame triggers a panel reload (modelled by the `reload`
collaborator); every other recognized frame is ignored. -/
def handleMessage {α : Type} (reload : SessionState α → SessionState α)
    (st : SessionState α) (msg : UplinkMsg α) : SessionState α :=
  match msg with
  | .uplink p =>
    if p.deviceId = "" then st
    else
      let updated := sliceLast 100 (getDevice st.pointsByDevice p.deviceId ++ [p])
      { st with pointsByDevice := setDevice st.pointsByDevice p.deviceId updated }
  | .alert => reload st
  | .connected => st
  | .hello => st

/-- The `ws.onmessage` handler (lines 1588-1595): parse the payload and
hand it to the message callback; a payload that fails to parse is
dropped (`catch` around `JSON.parse`) and the session state is
untouched. -/
def onFrame {α : Type} (parse : String → Option (UplinkMsg α))
    (handle : SessionState α → UplinkMsg α → SessionState α)
    (st : SessionState α) (raw : String) : SessionState α :=
  match parse raw with
  | some m => handle st m
  | none => st

/-- Processing a sequence of inbound frames in arrival order. -/
def runFrames {α : Type} (parse : String → Option (UplinkMsg α))
    (handle : SessionState α → UplinkMsg α → SessionState α)
    (st : SessionState α) (frames : List String) : SessionState α :=
  frames.foldl (onFrame parse handle) st

/-! Generic lemmas about the deduplication accumulator, the window trim
and the stable sort, over an arbitrary key function `key` and an
arbitrary integer sort key `f`. -/

section PipelineLemmas

variable {π κ : Type} (key : π → κ) [DecidableEq κ]

theorem dedupAcc_congr {l : List π} :
    ∀ {s s' : List κ}, (∀ x ∈ l, key x ∈ s ↔ key x ∈ s') →
      dedupAcc key s l = dedupAcc key s' l := by
  induction l with
  | nil => intro s s' _; rfl
  | cons x xs ih =>
    intro s s' h
    by_cases hx : key x ∈ s
    · rw [dedupAcc, if_pos hx, dedupAcc, if_pos ((h x (List.mem_cons_self x xs)).1 hx)]
      exact ih fun y hy => h y (List.mem_cons_of_mem x hy)
    · rw [dedupAcc, if_neg hx, dedupAcc,
        if_neg (fun hx' => hx ((h x (List.mem_cons_self x xs)).2 hx'))]
      congr 1
      refine ih fun y hy => ?_
      simp only [List.mem_cons]
      exact or_congr Iff.rfl (h y (List.mem_cons_of_mem x hy))

theorem dedupAcc_append {l₁ l₂ : List π} :
    ∀ {s : List κ}, dedupAcc key s (l₁ ++ l₂) =
      dedupAcc key s l₁ ++ dedupAcc key ((dedupAcc key s l₁).map key ++ s) l₂ := by
  induction l₁ with
  | nil => intro s; simp [dedupAcc]
  | cons x xs ih =>
    intro s
    by_cases hx : key x ∈ s
    · rw [List.cons_append, dedupAcc, if_pos hx, dedupAcc, if_pos hx, ih]
    · rw [List.cons_append, dedupAcc, if_neg hx, dedupAcc, if_neg hx, ih, List.cons_append]
      congr 1
      congr 1
      refine dedupAcc_congr key fun y _ => ?_
      simp only [List.map_cons, List.mem_append, List.mem_cons]
      tauto

theorem dedupAcc_sublist {s : List κ} {l : List π} : List.Sublist (dedupAcc key s l) l := by
  induction l generalizing s with
  | nil => exact List.Sublist.refl _
  | cons x xs ih =>
    rw [dedupAcc]
    by_cases hx : key x ∈ s
    · rw [if_pos hx]; exact (ih).cons x
    · rw [if_neg hx]; exact (ih).cons₂ x

theorem mem_of_mem_dedupAcc {s : List κ} {l : List π} {x : π}
    (h : x ∈ dedupAcc key s l) : x ∈ l :=
  (dedupAcc_sublist key).subset h

theorem mem_map_key_dedupAcc {l : List π} {k : κ} :
    ∀ {s : List κ}, k ∈ (dedupAcc key s l).map key ↔ k ∈ l.map key ∧ k ∉ s := by
  induction l with
  | nil => intro s; simp [dedupAcc]
  | cons x xs ih =>
    intro s
    by_cases hx : key x ∈ s
    · rw [dedupAcc, if_pos hx]
      simp only [List.map_cons, List.mem_cons, ih]
      constructor
      · rintro ⟨h1, h2⟩; exact ⟨Or.inr h1, h2⟩
      · rintro ⟨h1 | h1, h2⟩
        · exact absurd (h1 ▸ hx) h2
        · exact ⟨h1, h2⟩
    · rw [dedupAcc, if_neg hx]
      simp only [List.map_cons, List.mem_cons, ih]
      by_cases hk : k = key x
      · subst hk
        constructor
        · intro _; exact ⟨Or.inl rfl, hx⟩
        · intro _; exact Or.inl rfl
      · simp only [hk, false_or]

theorem nodup_map_key_dedupAcc {l : List π} :
    ∀ {s : List κ}, ((dedupAcc key s l).map key).Nodup := by
  induction l with
  | nil => intro s; simp [dedupAcc]
  | cons x xs ih =>
    intro s
    by_cases hx : key x ∈ s
    · rw [dedupAcc, if_pos hx]; exact ih
    · rw [dedupAcc, if_neg hx]
      simp only [List.map_cons, List.nodup_cons]
      refine ⟨fun hmem => ?_, ih⟩
      exact ((mem_map_key_dedupAcc key).1 hmem).2 (List.mem_cons_self _ _)

theorem dedupAcc_keys_not_seen {s : List κ} {l : List π} {x : π}
    (h : x ∈ dedupAcc key s l) : key x ∉ s := by
  have : key x ∈ (dedupAcc key s l).map key := List.mem_map_of_mem key h
  exact ((mem_map_key_dedupAcc key).1 this).2

theorem dedupAcc_eq_self {l : List π} :
    ∀ {s : List κ}, (l.map key).Nodup → (∀ x ∈ l, key x ∉ s) →
      dedupAcc key s l = l := by
  induction l with
  | nil => intro s _ _; rfl
  | cons x xs ih =>
    intro s hn hd
    rw [dedupAcc, if_neg (hd x (List.mem_cons_self x xs))]
    congr 1
    simp only [List.map_cons, List.nodup_cons] at hn
    refine ih hn.2 fun y hy => ?_
    simp only [List.mem_cons]
    rintro (h | h)
    · exact hn.1 (h ▸ List.mem_map_of_mem key hy)
    · exact hd y (List.mem_cons_of_mem x hy) h

theorem dedupAcc_eq_nil {l : List π} :
    ∀ {s : List κ}, (∀ x ∈ l, key x ∈ s) → dedupAcc key s l = [] := by
  induction l with
  | nil => intro s _; rfl
  | cons x xs ih =>
    intro s h
    rw [dedupAcc, if_pos (h x (List.mem_cons_self x xs))]
    exact ih fun y hy => h y (List.mem_cons_of_mem x hy)

theorem dedupeByFirstAux_fuel {n : Nat} :
    ∀ {m : Nat} {l : List π}, l.length ≤ n → l.length ≤ m →
      dedupeByFirstAux key n l = dedupeByFirstAux key m l := by
  induction n with
  | zero =>
    intro m l hn _
    have : l = [] := List.eq_nil_of_length_eq_zero (Nat.le_zero.mp hn)
    subst this
    cases m <;> rfl
  | succ n ih =>
    intro m l hn hm
    cases l with
    | nil => cases m <;> rfl
    | cons x xs =>
      cases m with
      | zero => simp at hm
      | succ m =>
        rw [dedupeByFirstAux, dedupeByFirstAux]
        congr 1
        have hf : (xs.filter (fun y => decide (key y ≠ key x))).length ≤ xs.length :=
          List.length_filter_le _ _
        simp only [List.length_cons, Nat.succ_le_succ_iff] at hn hm
        exact ih (le_trans hf hn) (le_trans hf hm)

theorem dedupeByFirst_nil : dedupeByFirst key ([] : List π) = [] := rfl

theorem dedupeByFirst_cons (x : π) (xs : List π) :
    dedupeByFirst key (x :: xs) =
      x :: dedupeByFirst key (xs.filter (fun y => decide (key y ≠ key x))) := by
  rw [dedupeByFirst, dedupeByFirst, List.length_cons, dedupeByFirstAux]
  congr 1
  exact dedupeByFirstAux_fuel key (List.length_filter_le _ _) (le_refl _)

theorem dedupAcc_eq_dedupeByFirst_filter (l : List π) :
    ∀ s : List κ, dedupAcc key s l =
      dedupeByFirst key (l.filter fun y => decide (key y ∉ s)) := by
  induction l with
  | nil => intro s; rfl
  | cons x xs ih =>
    intro s
    by_cases hx : key x ∈ s
    · rw [dedupAcc, if_pos hx, List.filter_cons_of_neg (by simpa using hx)]
      exact ih s
    · rw [dedupAcc, if_neg hx, List.filter_cons_of_pos (by simpa using hx),
        dedupeByFirst_cons, ih (key x :: s), List.filter_filter]
      congr 2
      refine List.filter_congr fun y _ => ?_
      simp only [List.mem_cons, decide_not]
      by_cases h1 : key y = key x <;> by_cases h2 : key y ∈ s <;>
        simp [h1, h2]

theorem dedupePoints_eq_dedupeByFirst (l : List π) :
    dedupePoints key l = dedupeByFirst key l := by
  rw [dedupePoints, dedupAcc_eq_dedupeByFirst_filter key l []]
  congr 1
  simp

theorem sliceLast_of_length_le {n : Nat} {l : List π} (h : l.length ≤ n) :
    sliceLast n l = l := by
  have hz : l.length - n = 0 := by omega
  rw [sliceLast, hz, List.drop_zero]

theorem length_sliceLast (n : Nat) (l : List π) :
    (sliceLast n l).length = min l.length n := by
  rw [sliceLast, List.length_drop]
  omega

theorem sliceLast_sublist (n : Nat) (l : List π) : List.Sublist (sliceLast n l) l :=
  List.drop_sublist _ _

variable (f : π → Int)

theorem sorted_insertionSort_le (l : List π) :
    List.Sorted (fun a b => f a ≤ f b) (List.insertionSort (fun a b => f a ≤ f b) l) := by
  haveI : IsTotal π (fun a b => f a ≤ f b) := ⟨fun a b => Int.le_total _ _⟩
  haveI : IsTrans π (fun a b => f a ≤ f b) := ⟨fun a b c hab hbc => le_trans hab hbc⟩
  exact List.sorted_insertionSort _ l

theorem eq_of_perm_sorted_injOn :
    ∀ {l₁ l₂ : List π}, List.Perm l₁ l₂ →
      List.Sorted (fun a b => f a ≤ f b) l₁ →
      List.Sorted (fun a b => f a ≤ f b) l₂ →
      (∀ x ∈ l₁, ∀ y ∈ l₁, f x = f y → x = y) → l₁ = l₂ := by
  intro l₁
  induction l₁ with
  | nil => intro l₂ hp _ _ _; exact (hp.nil_eq).symm ▸ rfl
  | cons x xs ih =>
    intro l₂ hp hs₁ hs₂ hinj
    cases l₂ with
    | nil => exact absurd hp.symm.nil_eq (by simp)
    | cons y ys =>
      have hxy : x = y := by
        have hyin : y ∈ x :: xs := hp.symm.subset (List.mem_cons_self y ys)
        have hxin : x ∈ y :: ys := hp.subset (List.mem_cons_self x xs)
        rcases List.mem_cons.mp hyin with h | h
        · exact h.symm
        · rcases List.mem_cons.mp hxin with h' | h'
          · exact h'
          · have h1 : f x ≤ f y := List.rel_of_sorted_cons hs₁ y h
            have h2 : f y ≤ f x := List.rel_of_sorted_cons hs₂ x h'
            exact hinj x (List.mem_cons_self x xs) y (List.mem_cons_of_mem x h)
              (le_antisymm h1 h2)
      subst hxy
      have htail : List.Perm xs ys := hp.cons_inv
      have := ih htail hs₁.of_cons hs₂.of_cons
        (fun a ha b hb hfab =>
          hinj a (List.mem_cons_of_mem x ha) b (List.mem_cons_of_mem x hb) hfab)
      rw [this]

end PipelineLemmas

/-! Merge-level lemmas, specialized to `LivePoint` histories. -/

section MergeLevel

variable {α : Type} (numStr : α → String) (parseD : String → Option Int)

theorem sortByTs_perm (l : List (LivePoint α)) : List.Perm (sortByTs parseD l) l :=
  List.perm_insertionSort _ l

theorem sortByTs_length (l : List (LivePoint α)) :
    (sortByTs parseD l).length = l.length :=
  List.length_insertionSort _ l

theorem sortByTs_sorted (l : List (LivePoint α)) :
    List.Sorted (fun a b => tsOf parseD a ≤ tsOf parseD b) (sortByTs parseD l) :=
  sorted_insertionSort_le (tsOf parseD) l

theorem sortByTs_of_sorted {l : List (LivePoint α)}
    (h : List.Sorted (fun a b => tsOf parseD a ≤ tsOf parseD b) l) :
    sortByTs parseD l = l :=
  h.insertionSort_eq

/-- Deduping a batch after an already-deduplicated, key-complete prefix:
the prefix survives unchanged and the batch contributes exactly the
points whose key is new. -/
theorem dedupePoints_sorted_append (H P : List (LivePoint α)) :
    dedupePoints (dedupKey numStr) (sortByTs parseD (dedupePoints (dedupKey numStr) H) ++ P)
      = sortByTs parseD (dedupePoints (dedupKey numStr) H) ++
        dedupAcc (dedupKey numStr)
          ((dedupePoints (dedupKey numStr) H).map (dedupKey numStr)) P := by
  have hpermS : List.Perm (sortByTs parseD (dedupePoints (dedupKey numStr) H))
      (dedupePoints (dedupKey numStr) H) := sortByTs_perm parseD _
  have hnodupD : ((dedupePoints (dedupKey numStr) H).map (dedupKey numStr)).Nodup :=
    nodup_map_key_dedupAcc _
  have hnodupS : ((sortByTs parseD (dedupePoints (dedupKey numStr) H)).map
      (dedupKey numStr)).Nodup :=
    ((hpermS.map _).nodup_iff).mpr hnodupD
  rw [dedupePoints, dedupAcc_append, dedupAcc_eq_self _ hnodupS (by simp)]
  congr 1
  refine dedupAcc_congr _ fun y _ => ?_
  simp only [List.append_nil, List.mem_append]
  exact ⟨fun h => (hpermS.map (dedupKey numStr)).mem_iff.mp h,
    fun h => (hpermS.map (dedupKey numStr)).mem_iff.mpr h⟩

end MergeLevel

/-! Claim C1: the merge pipeline. -/

/-- C1 (amended): for every device and incoming batch, the merge of
`loadLatestPoints` produces exactly the history obtained by
concatenating the batch onto the existing history, removing duplicates
of the concatenated key string `` `ts-lat-lon-frameCounter` `` (missing
frameCounter as the empty string) keeping the first occurrence, sorting
ascending (stably) by parsed timestamp with unparseable or missing
timestamps treated as timestamp 0, and trimming to the most recent 120
points; the result is sorted and no error is raised for unparseable
timestamps (every branch of the total function `toMs` yields a value).
The amendment relative to the claim as stated: deduplication uses the
dash-joined key string, which identifies strictly fewer points than the
identity tuple (timestamp string, lat, lon, frameCounter) whenever
distinct tuples collide as strings. -/
theorem C1_merge_is_spec_pipeline {α : Type} (numStr : α → String)
    (parseD : String → Option Int) (H P : List (LivePoint α)) :
    mergePoints numStr parseD H P = mergeSpecKeyString numStr parseD H P ∧
    List.Sorted (fun a b => tsOf parseD a ≤ tsOf parseD b)
      (mergePoints numStr parseD H P) := by
  constructor
  · rw [mergePoints, mergeSpecKeyString, dedupePoints_eq_dedupeByFirst]
  · exact List.Pairwise.sublist (sliceLast_sublist _ _) (sortByTs_sorted parseD _)

/-- C1 (witness for the amended equality): evaluated at a concrete
two-point batch. -/
theorem C1_merge_is_spec_pipeline_witness :
    mergePoints toString (fun _ => none) []
        [(⟨"d", some "a", none, 1, 2, some 3⟩ : LivePoint Int),
         ⟨"d", some "b", none, 4, 5, none⟩]
      = mergeSpecKeyString toString (fun _ => none) []
        [⟨"d", some "a", none, 1, 2, some 3⟩, ⟨"d", some "b", none, 4, 5, none⟩] :=
  (C1_merge_is_spec_pipeline toString (fun _ => none) [] _).1

/-- First half of the colliding pair refuting C1 as stated: timestamp
string `"t-"`, latitude `1`. -/
def colPointA : LivePoint Int := ⟨"d", some "t-", none, 1, 2, some 3⟩

/-- Second half of the colliding pair: timestamp string `"t"`, latitude
`-1`; its dash-joined key string `"t--1-2-3"` equals `colPointA`'s even
though the identity tuples differ. -/
def colPointB : LivePoint Int := ⟨"d", some "t", none, -1, 2, some 3⟩

/-- C1 (counterexample to the claim as stated): the claim's identity
tuple (timestamp string, lat, lon, frameCounter) distinguishes
`colPointA` from `colPointB`, so the claimed pipeline keeps both, but
the merge collapses them because their dash-joined key strings
coincide; hence the merge is not deduplication by the identity tuple. -/
theorem C1_counterexample_tuple_identity :
    identityTuple colPointA ≠ identityTuple colPointB ∧
    dedupKey toString colPointA = dedupKey toString colPointB ∧
    mergePoints toString (fun _ => none) [] [colPointA, colPointB]
      ≠ mergeSpecTuple (fun _ => none) [] [colPointA, colPointB] := by
  refine ⟨by decide, by decide, by decide⟩

/-! Claim C4: idempotence of the merge. -/

/-- C4 (amended): merging the same point set twice is the same as
merging it once, provided the deduplicated concatenation fits within
the 120-point window (so the trim step is a no-op); the unrestricted
claim fails once trimming occurs, see the counterexample. -/
theorem C4_merge_idempotent {α : Type} (numStr : α → String)
    (parseD : String → Option Int) (H P : List (LivePoint α))
    (hfit : (dedupePoints (dedupKey numStr) (H ++ P)).length ≤ 120) :
    mergePoints numStr parseD (mergePoints numStr parseD H P) P
      = mergePoints numStr parseD H P := by
  have hlenS : (sortByTs parseD (dedupePoints (dedupKey numStr) (H ++ P))).length ≤ 120 := by
    rw [sortByTs_length]; exact hfit
  have h1 : mergePoints numStr parseD H P
      = sortByTs parseD (dedupePoints (dedupKey numStr) (H ++ P)) := by
    rw [mergePoints, sliceLast_of_length_le hlenS]
  rw [h1, mergePoints, dedupePoints_sorted_append]
  have hdup : dedupAcc (dedupKey numStr)
      ((dedupePoints (dedupKey numStr) (H ++ P)).map (dedupKey numStr)) P = [] := by
    refine dedupAcc_eq_nil _ fun p hp => ?_
    have : dedupKey numStr p ∈ (H ++ P).map (dedupKey numStr) :=
      List.mem_map_of_mem _ (List.mem_append_right H hp)
    exact (mem_map_key_dedupAcc (dedupKey numStr)).2 ⟨this, by simp⟩
  rw [hdup, List.append_nil,
    sortByTs_of_sorted parseD (sortByTs_sorted parseD _),
    sliceLast_of_length_le hlenS]

/-- C4 (witness for the amended idempotence): evaluated at a concrete
one-point batch. -/
theorem C4_merge_idempotent_witness :
    (dedupePoints (dedupKey toString)
        (([] : List (LivePoint Int)) ++ [⟨"d", some "a", none, 1, 2, none⟩])).length ≤ 120 ∧
    mergePoints toString (fun _ => none)
        (mergePoints toString (fun _ => none) [] [⟨"d", some "a", none, 1, 2, none⟩])
        [⟨"d", some "a", none, 1, 2, none⟩]
      = mergePoints toString (fun _ => none) [] [⟨"d", some "a", none, 1, 2, none⟩] :=
  ⟨by decide, C4_merge_idempotent toString (fun _ => none) [] _ (by decide)⟩

/-- One of 121 points sharing the parsed timestamp 0 (every timestamp
string is unparseable under the counterexample's date parser) with
pairwise distinct key strings. -/
def tiedPoint (i : Nat) : LivePoint Int := ⟨"", some (toString i), none, 0, 0, none⟩

/-- A batch of 121 such points: one more than the 120-point window. -/
def tiedBatch : List (LivePoint Int) := (List.range 121).map tiedPoint

set_option maxRecDepth 100000 in
/-- C4 (counterexample to the claim as stated): with 121 distinct-key
points that all parse to timestamp 0, the first merge trims away the
first point of the batch (stable sort keeps arrival order among the
ties, and the trim drops the oldest position); re-merging the same
batch re-adds that point as a new key at the end of the tie group and
the trim now evicts a different point, so
`merge(merge([], P), P) ≠ merge([], P)`. -/
theorem C4_counterexample_idempotence :
    mergePoints toString (fun _ => none)
        (mergePoints toString (fun _ => none) [] tiedBatch) tiedBatch
      ≠ mergePoints toString (fun _ => none) [] tiedBatch := by
  decide

/-! Claim C5: order-independence of the merge for disjoint-identity
batches. -/

section OrderIndependence

theorem dedupAcc_seen_append_nil {π κ : Type} [DecidableEq κ] (key : π → κ)
    (s : List κ) (l : List π) :
    dedupAcc key (s ++ []) l = dedupAcc key s l :=
  dedupAcc_congr key fun y _ => by simp

theorem dedupAcc_seen_drop_right {π κ : Type} [DecidableEq κ] (key : π → κ)
    (s t : List κ) (l : List π) (h : ∀ x ∈ l, key x ∉ t) :
    dedupAcc key (s ++ t) l = dedupAcc key s l := by
  refine dedupAcc_congr key fun y hy => ?_
  simp only [List.mem_append]
  exact ⟨fun hc => hc.resolve_right (h y hy), Or.inl⟩

theorem dedupePoints_append {π κ : Type} [DecidableEq κ] (key : π → κ)
    (l₁ l₂ : List π) :
    dedupePoints key (l₁ ++ l₂)
      = dedupePoints key l₁ ++ dedupAcc key ((dedupePoints key l₁).map key) l₂ := by
  rw [dedupePoints, dedupePoints, dedupAcc_append]
  congr 1
  exact dedupAcc_seen_append_nil key _ l₂

variable {α : Type} (numStr : α → String) (parseD : String → Option Int)

/-- When the deduplicated concatenation fits inside the window, the
merge is just the stable sort of the deduplicated concatenation. -/
theorem mergePoints_eq_sort_of_fit {H P : List (LivePoint α)}
    (hfit : (dedupePoints (dedupKey numStr) (H ++ P)).length ≤ 120) :
    mergePoints numStr parseD H P
      = sortByTs parseD (dedupePoints (dedupKey numStr) (H ++ P)) := by
  have hlenS : (sortByTs parseD (dedupePoints (dedupKey numStr) (H ++ P))).length ≤ 120 := by
    rw [sortByTs_length]; exact hfit
  rw [mergePoints, sliceLast_of_length_le hlenS]

set_option maxRecDepth 8000 in
/-- C5 (amended): for batches `A` and `B` with pairwise disjoint
deduplication keys, merging `A` then `B` equals merging `B` then `A`,
provided additionally that no two distinct involved points share a
parsed timestamp (the stable sort then has a unique result) and that
the deduplicated union of history and both batches fits within the
120-point window (the trims are no-ops). Both extra hypotheses are
forced by the counterexample: timestamp ties break the equality even
without trimming, and trimming breaks it even with pairwise distinct
timestamps. -/
theorem C5_merge_order_independent (H A B : List (LivePoint α))
    (hdisj : ∀ a ∈ A, ∀ b ∈ B, dedupKey numStr a ≠ dedupKey numStr b)
    (hinj : ∀ x ∈ H ++ A ++ B, ∀ y ∈ H ++ A ++ B,
      tsOf parseD x = tsOf parseD y → x = y)
    (hfit : (dedupePoints (dedupKey numStr) (H ++ A ++ B)).length ≤ 120) :
    mergePoints numStr parseD (mergePoints numStr parseD H A) B
      = mergePoints numStr parseD (mergePoints numStr parseD H B) A := by
  -- keys of one batch never appear among the keys of the other
  have hBnotA : ∀ b ∈ B, dedupKey numStr b ∉
      (dedupAcc (dedupKey numStr) ((dedupePoints (dedupKey numStr) H).map (dedupKey numStr)) A).map
        (dedupKey numStr) := by
    intro b hb hmem
    obtain ⟨t, ht, hkt⟩ := List.mem_map.1 hmem
    exact hdisj t (mem_of_mem_dedupAcc _ ht) b hb hkt
  have hAnotB : ∀ a ∈ A, dedupKey numStr a ∉
      (dedupAcc (dedupKey numStr) ((dedupePoints (dedupKey numStr) H).map (dedupKey numStr)) B).map
        (dedupKey numStr) := by
    intro a ha hmem
    obtain ⟨t, ht, hkt⟩ := List.mem_map.1 hmem
    exact hdisj a ha t (mem_of_mem_dedupAcc _ ht) hkt.symm
  -- one-stage decompositions
  have h1 : dedupePoints (dedupKey numStr) (H ++ A)
      = dedupePoints (dedupKey numStr) H ++
        dedupAcc (dedupKey numStr) ((dedupePoints (dedupKey numStr) H).map (dedupKey numStr)) A :=
    dedupePoints_append _ H A
  have h2 : dedupePoints (dedupKey numStr) (H ++ B)
      = dedupePoints (dedupKey numStr) H ++
        dedupAcc (dedupKey numStr) ((dedupePoints (dedupKey numStr) H).map (dedupKey numStr)) B :=
    dedupePoints_append _ H B
  -- two-stage decompositions: the other batch's keys are irrelevant
  have hX : dedupePoints (dedupKey numStr) (H ++ A ++ B)
      = (dedupePoints (dedupKey numStr) H ++
          dedupAcc (dedupKey numStr) ((dedupePoints (dedupKey numStr) H).map (dedupKey numStr)) A) ++
        dedupAcc (dedupKey numStr) ((dedupePoints (dedupKey numStr) H).map (dedupKey numStr)) B := by
    rw [dedupePoints_append _ (H ++ A) B, h1, List.map_append,
      dedupAcc_seen_drop_right _ _ _ _ hBnotA]
  have hY : dedupePoints (dedupKey numStr) (H ++ B ++ A)
      = (dedupePoints (dedupKey numStr) H ++
          dedupAcc (dedupKey numStr) ((dedupePoints (dedupKey numStr) H).map (dedupKey numStr)) B) ++
        dedupAcc (dedupKey numStr) ((dedupePoints (dedupKey numStr) H).map (dedupKey numStr)) A := by
    rw [dedupePoints_append _ (H ++ B) A, h2, List.map_append,
      dedupAcc_seen_drop_right _ _ _ _ hAnotB]
  -- lengths: nothing is ever trimmed
  rw [hX, List.length_append, List.length_append] at hfit
  have hfitHA : (dedupePoints (dedupKey numStr) (H ++ A)).length ≤ 120 := by
    rw [h1, List.length_append]
    omega
  have hfitHB : (dedupePoints (dedupKey numStr) (H ++ B)).length ≤ 120 := by
    rw [h2, List.length_append]
    omega
  -- second-stage deduplications
  have hZ1 : dedupePoints (dedupKey numStr)
      (sortByTs parseD (dedupePoints (dedupKey numStr) (H ++ A)) ++ B)
      = sortByTs parseD (dedupePoints (dedupKey numStr) (H ++ A)) ++
        dedupAcc (dedupKey numStr) ((dedupePoints (dedupKey numStr) H).map (dedupKey numStr)) B := by
    rw [dedupePoints_sorted_append]
    congr 1
    rw [h1, List.map_append, dedupAcc_seen_drop_right _ _ _ _ hBnotA]
  have hZ2 : dedupePoints (dedupKey numStr)
      (sortByTs parseD (dedupePoints (dedupKey numStr) (H ++ B)) ++ A)
      = sortByTs parseD (dedupePoints (dedupKey numStr) (H ++ B)) ++
        dedupAcc (dedupKey numStr) ((dedupePoints (dedupKey numStr) H).map (dedupKey numStr)) A := by
    rw [dedupePoints_sorted_append]
    congr 1
    rw [h2, List.map_append, dedupAcc_seen_drop_right _ _ _ _ hAnotB]
  -- permutation chain
  have hpermZ1 : List.Perm
      (dedupePoints (dedupKey numStr)
        (sortByTs parseD (dedupePoints (dedupKey numStr) (H ++ A)) ++ B))
      (dedupePoints (dedupKey numStr) (H ++ A) ++
        dedupAcc (dedupKey numStr) ((dedupePoints (dedupKey numStr) H).map (dedupKey numStr)) B) := by
    rw [hZ1]
    exact (sortByTs_perm parseD _).append_right _
  have hpermZ2 : List.Perm
      (dedupePoints (dedupKey numStr)
        (sortByTs parseD (dedupePoints (dedupKey numStr) (H ++ B)) ++ A))
      (dedupePoints (dedupKey numStr) (H ++ B) ++
        dedupAcc (dedupKey numStr) ((dedupePoints (dedupKey numStr) H).map (dedupKey numStr)) A) := by
    rw [hZ2]
    exact (sortByTs_perm parseD _).append_right _
  have hpermXY : List.Perm
      (dedupePoints (dedupKey numStr) (H ++ A) ++
        dedupAcc (dedupKey numStr) ((dedupePoints (dedupKey numStr) H).map (dedupKey numStr)) B)
      (dedupePoints (dedupKey numStr) (H ++ B) ++
        dedupAcc (dedupKey numStr) ((dedupePoints (dedupKey numStr) H).map (dedupKey numStr)) A) := by
    rw [h1, h2, List.append_assoc, List.append_assoc]
    exact List.Perm.append_left _ List.perm_append_comm
  -- second-stage merges do not trim either
  have hfitZ1 : (dedupePoints (dedupKey numStr)
      (sortByTs parseD (dedupePoints (dedupKey numStr) (H ++ A)) ++ B)).length ≤ 120 := by
    rw [hZ1, List.length_append, sortByTs_length, h1, List.length_append]
    omega
  have hfitZ2 : (dedupePoints (dedupKey numStr)
      (sortByTs parseD (dedupePoints (dedupKey numStr) (H ++ B)) ++ A)).length ≤ 120 := by
    rw [hZ2, List.length_append, sortByTs_length, h2, List.length_append]
    omega
  rw [mergePoints_eq_sort_of_fit numStr parseD hfitHA,
    mergePoints_eq_sort_of_fit numStr parseD hfitHB,
    mergePoints_eq_sort_of_fit numStr parseD hfitZ1,
    mergePoints_eq_sort_of_fit numStr parseD hfitZ2]
  -- both sides are sorts of permuted lists with injective sort keys
  have hperm : List.Perm
      (sortByTs parseD (dedupePoints (dedupKey numStr)
        (sortByTs parseD (dedupePoints (dedupKey numStr) (H ++ A)) ++ B)))
      (sortByTs parseD (dedupePoints (dedupKey numStr)
        (sortByTs parseD (dedupePoints (dedupKey numStr) (H ++ B)) ++ A))) :=
    (sortByTs_perm parseD _).trans
      ((hpermZ1.trans (hpermXY.trans hpermZ2.symm)).trans (sortByTs_perm parseD _).symm)
  refine eq_of_perm_sorted_injOn (tsOf parseD) hperm
    (sortByTs_sorted parseD _) (sortByTs_sorted parseD _) ?_
  have hmemZ1 : ∀ z, z ∈ dedupePoints (dedupKey numStr)
      (sortByTs parseD (dedupePoints (dedupKey numStr) (H ++ A)) ++ B) →
      z ∈ H ++ A ++ B := by
    intro z hz
    rw [hZ1] at hz
    rcases List.mem_append.1 hz with hz | hz
    · have : z ∈ dedupePoints (dedupKey numStr) (H ++ A) :=
        (sortByTs_perm parseD _).subset hz
      exact List.mem_append_left B (mem_of_mem_dedupAcc _ this)
    · exact List.mem_append_right _ (mem_of_mem_dedupAcc _ hz)
  intro x hx y hy hxy
  have hx' : x ∈ H ++ A ++ B := hmemZ1 x ((sortByTs_perm parseD _).subset hx)
  have hy' : y ∈ H ++ A ++ B := hmemZ1 y ((sortByTs_perm parseD _).subset hy)
  exact hinj x hx' y hy' hxy

end OrderIndependence

/-- A concrete date parser for witnesses and counterexamples: the
decimal digits of the string, or `none` if any character is not a
digit (mirrors `new Date(t).getTime()` returning `NaN` on garbage). -/
def charDigit (c : Char) : Option Nat :=
  if '0' ≤ c ∧ c ≤ '9' then some (c.toNat - 48) else none

/-- Accumulating decimal parser over a character list. -/
def parseNatGo : List Char → Nat → Option Nat
  | [], acc => some acc
  | c :: rest, acc =>
    match charDigit c with
    | some d => parseNatGo rest (10 * acc + d)
    | none => none

/-- Digits-only string-to-milliseconds parser. -/
def cexParse (s : String) : Option Int :=
  match s.data with
  | [] => none
  | cs => (parseNatGo cs 0).map Int.ofNat

/-- C5 (witness for the amended order-independence): evaluated at a
concrete history and two one-point batches with distinct keys and
distinct parsed timestamps. -/
theorem C5_merge_order_independent_witness :
    (∀ a ∈ [(⟨"d", some "10", none, 1, 0, none⟩ : LivePoint Int)],
      ∀ b ∈ [(⟨"d", some "20", none, 2, 0, none⟩ : LivePoint Int)],
        dedupKey toString a ≠ dedupKey toString b) ∧
    (∀ x ∈ ([] : List (LivePoint Int)) ++ [⟨"d", some "10", none, 1, 0, none⟩]
        ++ [⟨"d", some "20", none, 2, 0, none⟩],
      ∀ y ∈ ([] : List (LivePoint Int)) ++ [⟨"d", some "10", none, 1, 0, none⟩]
        ++ [⟨"d", some "20", none, 2, 0, none⟩],
        tsOf cexParse x = tsOf cexParse y → x = y) ∧
    (dedupePoints (dedupKey toString)
      (([] : List (LivePoint Int)) ++ [⟨"d", some "10", none, 1, 0, none⟩]
        ++ [⟨"d", some "20", none, 2, 0, none⟩])).length ≤ 120 ∧
    mergePoints toString cexParse
        (mergePoints toString cexParse [] [⟨"d", some "10", none, 1, 0, none⟩])
        [⟨"d", some "20", none, 2, 0, none⟩]
      = mergePoints toString cexParse
        (mergePoints toString cexParse [] [⟨"d", some "20", none, 2, 0, none⟩])
        [⟨"d", some "10", none, 1, 0, none⟩] :=
  ⟨by decide, by decide, by decide,
    C5_merge_order_independent toString cexParse [] _ _
      (by decide) (by decide) (by decide)⟩

/-- A point whose timestamp string `"999999-"` is unparseable (parsed
timestamp 0) but whose key string collides with `lateArrival`'s. -/
def unparseableTwin : LivePoint Int := ⟨"d", some "999999-", none, 1, 0, none⟩

/-- A point with the recent parsed timestamp 999999 whose key string
`"999999--1-0-"` equals `unparseableTwin`'s. -/
def lateArrival : LivePoint Int := ⟨"d", some "999999", none, -1, 0, none⟩

/-- A 120-point history: `unparseableTwin` followed by 119 points with
parseable timestamps 100..218 and pairwise distinct keys. -/
def fullHistory : List (LivePoint Int) :=
  unparseableTwin ::
    (List.range 119).map (fun i => ⟨"d", some (toString (100 + i)), none, 0, 0, none⟩)

/-- A one-point batch with fresh key and timestamp 300000. -/
def freshBatch : List (LivePoint Int) := [⟨"d", some "300000", none, 0, 1, none⟩]

/-- Two points with identical parsed timestamps (both timestamp strings
are missing) and distinct keys, used in the tie half of the C5
counterexample. -/
def tieA : LivePoint Int := ⟨"d", none, none, 1, 0, none⟩

/-- The second tied point. -/
def tieB : LivePoint Int := ⟨"d", none, none, 2, 0, none⟩

set_option maxRecDepth 100000 in
/-- C5 (counterexample to the claim as stated, in two halves): first,
with `H = []` and the disjoint-identity one-point batches `[tieA]`,
`[tieB]` whose parsed timestamps tie at 0, the two merge orders produce
the two orders of the tie group and differ; second, even with pairwise
distinct parsed timestamps, a full 120-point history plus the
disjoint-identity batches `freshBatch` and `[lateArrival]` yield
different results in the two orders, because the order decides whether
`lateArrival` is deduplicated away against `unparseableTwin` before or
after the trim evicts that twin. -/
theorem C5_counterexample_order_dependence :
    (identityTuple tieA ≠ identityTuple tieB ∧
      dedupKey toString tieA ≠ dedupKey toString tieB ∧
      mergePoints toString cexParse (mergePoints toString cexParse [] [tieA]) [tieB]
        ≠ mergePoints toString cexParse (mergePoints toString cexParse [] [tieB]) [tieA]) ∧
    ((∀ a ∈ freshBatch, ∀ b ∈ [lateArrival], dedupKey toString a ≠ dedupKey toString b) ∧
      (∀ x ∈ fullHistory ++ freshBatch ++ [lateArrival],
        ∀ y ∈ fullHistory ++ freshBatch ++ [lateArrival],
          tsOf cexParse x = tsOf cexParse y → x = y) ∧
      mergePoints toString cexParse
          (mergePoints toString cexParse fullHistory freshBatch) [lateArrival]
        ≠ mergePoints toString cexParse
          (mergePoints toString cexParse fullHistory [lateArrival]) freshBatch) := by
  refine ⟨⟨by decide, by decide, by decide⟩, ⟨by decide, by decide, by decide⟩⟩

/-! Claim C6: the window invariant over arbitrary merge sequences. -/

section WindowInvariant

theorem mem_map_key_dedupePoints {π κ : Type} [DecidableEq κ] (key : π → κ)
    {l : List π} {k : κ} :
    k ∈ (dedupePoints key l).map key ↔ k ∈ l.map key := by
  rw [dedupePoints, mem_map_key_dedupAcc]
  simp

/-- In a list sorted ascending by `f`, every element outside the
trailing window is at most every element inside it. -/
theorem rel_of_not_mem_sliceLast_of_mem {π : Type} {f : π → Int} {n : Nat} {l : List π}
    (hs : List.Sorted (fun a b => f a ≤ f b) l) {y p : π}
    (hy : y ∈ l) (hyn : y ∉ sliceLast n l) (hp : p ∈ sliceLast n l) : f y ≤ f p := by
  rw [sliceLast] at hyn hp
  have hy' : y ∈ l.take (l.length - n) ++ l.drop (l.length - n) := by
    rw [List.take_append_drop]; exact hy
  rcases List.mem_append.1 hy' with h | h
  · exact hs.rel_of_mem_take_of_mem_drop h hp
  · exact absurd h hyn

variable {α : Type} (numStr : α → String) (parseD : String → Option Int)

/-- One step of the window invariant: merging a further batch preserves
the bounded length, the key nodup property, provenance, the
most-recent-retained property and the below-cap completeness
property. -/
theorem mergeWindow_step (bs : List (List (LivePoint α))) (b h : List (LivePoint α))
    (coh : ∀ x ∈ (bs ++ [b]).flatten, ∀ y ∈ (bs ++ [b]).flatten,
      dedupKey numStr x = dedupKey numStr y → tsOf parseD x = tsOf parseD y)
    (hlen : h.length ≤ 120)
    (hnodup : (h.map (dedupKey numStr)).Nodup)
    (hprov : ∀ p ∈ h, p ∈ bs.flatten)
    (hrecent : ∀ x ∈ bs.flatten, dedupKey numStr x ∉ h.map (dedupKey numStr) →
      ∀ p ∈ h, tsOf parseD x ≤ tsOf parseD p)
    (hcomplete : h.length < 120 →
      ∀ x ∈ bs.flatten, dedupKey numStr x ∈ h.map (dedupKey numStr)) :
    (mergePoints numStr parseD h b).length ≤ 120 ∧
    ((mergePoints numStr parseD h b).map (dedupKey numStr)).Nodup ∧
    (∀ p ∈ mergePoints numStr parseD h b, p ∈ (bs ++ [b]).flatten) ∧
    (∀ x ∈ (bs ++ [b]).flatten,
      dedupKey numStr x ∉ (mergePoints numStr parseD h b).map (dedupKey numStr) →
      ∀ p ∈ mergePoints numStr parseD h b, tsOf parseD x ≤ tsOf parseD p) ∧
    ((mergePoints numStr parseD h b).length < 120 →
      ∀ x ∈ (bs ++ [b]).flatten,
        dedupKey numStr x ∈ (mergePoints numStr parseD h b).map (dedupKey numStr)) := by
  have hflat : ∀ x : LivePoint α, x ∈ (bs ++ [b]).flatten ↔ x ∈ bs.flatten ∨ x ∈ b := by
    intro x
    simp [List.flatten_append]
  have hDh : dedupePoints (dedupKey numStr) h = h := by
    rw [dedupePoints]
    exact dedupAcc_eq_self _ hnodup (by simp)
  have hD : dedupePoints (dedupKey numStr) (h ++ b)
      = h ++ dedupAcc (dedupKey numStr) (h.map (dedupKey numStr)) b := by
    rw [dedupePoints_append, hDh]
  have hTb : ∀ t ∈ dedupAcc (dedupKey numStr) (h.map (dedupKey numStr)) b, t ∈ b :=
    fun t ht => mem_of_mem_dedupAcc _ ht
  have hTk : ∀ t ∈ dedupAcc (dedupKey numStr) (h.map (dedupKey numStr)) b,
      dedupKey numStr t ∉ h.map (dedupKey numStr) :=
    fun t ht => dedupAcc_keys_not_seen _ ht
  have hpermL : List.Perm (sortByTs parseD (dedupePoints (dedupKey numStr) (h ++ b)))
      (h ++ dedupAcc (dedupKey numStr) (h.map (dedupKey numStr)) b) :=
    (sortByTs_perm parseD _).trans (hD ▸ List.Perm.refl _)
  have hsorted : List.Sorted (fun a b => tsOf parseD a ≤ tsOf parseD b)
      (sortByTs parseD (dedupePoints (dedupKey numStr) (h ++ b))) :=
    sortByTs_sorted parseD _
  have hLlen : (sortByTs parseD (dedupePoints (dedupKey numStr) (h ++ b))).length
      = h.length + (dedupAcc (dedupKey numStr) (h.map (dedupKey numStr)) b).length := by
    rw [sortByTs_length, hD, List.length_append]
  have hmerge : mergePoints numStr parseD h b
      = sliceLast 120 (sortByTs parseD (dedupePoints (dedupKey numStr) (h ++ b))) := rfl
  have hsub : List.Sublist (mergePoints numStr parseD h b)
      (sortByTs parseD (dedupePoints (dedupKey numStr) (h ++ b))) := by
    rw [hmerge]; exact sliceLast_sublist _ _
  have hmem' : ∀ p ∈ mergePoints numStr parseD h b,
      p ∈ h ++ dedupAcc (dedupKey numStr) (h.map (dedupKey numStr)) b :=
    fun p hp => hpermL.subset (hsub.subset hp)
  have hlen' : (mergePoints numStr parseD h b).length ≤ 120 := by
    rw [hmerge, length_sliceLast]
    omega
  refine ⟨hlen', ?_, ?_, ?_, ?_⟩
  · -- keys stay nodup
    have hnodupD : ((dedupePoints (dedupKey numStr) (h ++ b)).map (dedupKey numStr)).Nodup :=
      nodup_map_key_dedupAcc _
    have hnodupL : ((sortByTs parseD (dedupePoints (dedupKey numStr) (h ++ b))).map
        (dedupKey numStr)).Nodup :=
      (((sortByTs_perm parseD _).map _).nodup_iff).mpr hnodupD
    exact List.Nodup.sublist (hsub.map _) hnodupL
  · -- provenance
    intro p hp
    rcases List.mem_append.1 (hmem' p hp) with hph | hpT
    · exact (hflat p).2 (Or.inl (hprov p hph))
    · exact (hflat p).2 (Or.inr (hTb p hpT))
  · -- the most-recent-retained property
    intro x hxj hkx p hp
    by_cases hxD : dedupKey numStr x ∈ (dedupePoints (dedupKey numStr) (h ++ b)).map (dedupKey numStr)
    · obtain ⟨y, hyD, hky⟩ := List.mem_map.1 hxD
      have hyL : y ∈ sortByTs parseD (dedupePoints (dedupKey numStr) (h ++ b)) :=
        (sortByTs_perm parseD _).mem_iff.mpr hyD
      have hyNot : y ∉ mergePoints numStr parseD h b := fun hy' =>
        hkx (hky ▸ List.mem_map_of_mem _ hy')
      have hle : tsOf parseD y ≤ tsOf parseD p := by
        rw [hmerge] at hyNot hp
        exact rel_of_not_mem_sliceLast_of_mem hsorted hyL hyNot hp
      have hyhb : y ∈ h ++ b := by
        have hyD' := hyD
        rw [dedupePoints] at hyD'
        exact mem_of_mem_dedupAcc _ hyD' 
      have hyflat : y ∈ (bs ++ [b]).flatten := by
        rcases List.mem_append.1 hyhb with hyh | hyb
        · exact (hflat y).2 (Or.inl (hprov y hyh))
        · exact (hflat y).2 (Or.inr hyb)
      have := coh x hxj y hyflat hky.symm
      omega
    · have hxhb : dedupKey numStr x ∉ (h ++ b).map (dedupKey numStr) := by
        rw [← mem_map_key_dedupePoints (dedupKey numStr)]
        exact hxD
      rw [List.map_append, List.mem_append] at hxhb
      push_neg at hxhb
      have hxbs : x ∈ bs.flatten := by
        rcases (hflat x).1 hxj with hx | hx
        · exact hx
        · exact absurd (List.mem_map_of_mem _ hx) hxhb.2
      have hxold : ∀ q ∈ h, tsOf parseD x ≤ tsOf parseD q := hrecent x hxbs hxhb.1
      rcases List.mem_append.1 (hmem' p hp) with hph | hpT
      · exact hxold p hph
      · have hcap : ¬ h.length < 120 := fun hlt => hxhb.1 (hcomplete hlt x hxbs)
        by_cases hd : ∀ d ∈ h, d ∈ mergePoints numStr parseD h b
        · have hnd : h.Nodup := List.Nodup.of_map _ hnodup
          have hsp : List.Subperm h (mergePoints numStr parseD h b) :=
            List.subperm_of_subset hnd hd
          have hlh' : (mergePoints numStr parseD h b).length ≤ h.length := by
            rw [hmerge, length_sliceLast]
            omega
          have hpermh : List.Perm h (mergePoints numStr parseD h b) :=
            hsp.perm_of_length_le hlh'
          have hph : p ∈ h := hpermh.mem_iff.mpr hp
          exact absurd (List.mem_map_of_mem _ hph) (hTk p hpT)
        · push_neg at hd
          obtain ⟨d, hdh, hdn⟩ := hd
          have hdL : d ∈ sortByTs parseD (dedupePoints (dedupKey numStr) (h ++ b)) :=
            hpermL.mem_iff.mpr (List.mem_append_left _ hdh)
          have hdp : tsOf parseD d ≤ tsOf parseD p := by
            rw [hmerge] at hdn hp
            exact rel_of_not_mem_sliceLast_of_mem hsorted hdL hdn hp
          exact le_trans (hxold d hdh) hdp
  · -- completeness below the cap
    intro hlt x hxj
    have hLlt : (sortByTs parseD (dedupePoints (dedupKey numStr) (h ++ b))).length < 120 := by
      rw [hmerge, length_sliceLast] at hlt
      omega
    have h'eq : mergePoints numStr parseD h b
        = sortByTs parseD (dedupePoints (dedupKey numStr) (h ++ b)) := by
      rw [hmerge, sliceLast_of_length_le (le_of_lt hLlt)]
    rw [h'eq]
    have hgoal : dedupKey numStr x ∈ (h ++ b).map (dedupKey numStr) := by
      rcases (hflat x).1 hxj with hx | hx
      · have hhlt : h.length < 120 := by omega
        have := hcomplete hhlt x hx
        rw [List.map_append, List.mem_append]
        exact Or.inl this
      · rw [List.map_append, List.mem_append]
        exact Or.inr (List.mem_map_of_mem _ hx)
    have : dedupKey numStr x ∈ (dedupePoints (dedupKey numStr) (h ++ b)).map (dedupKey numStr) :=
      (mem_map_key_dedupePoints _).2 hgoal
    exact ((sortByTs_perm parseD _).map _).mem_iff.mpr this

/-- The window invariant holds after any finite sequence of merges. -/
theorem runMerges_window (batches : List (List (LivePoint α)))
    (coh : ∀ x ∈ batches.flatten, ∀ y ∈ batches.flatten,
      dedupKey numStr x = dedupKey numStr y → tsOf parseD x = tsOf parseD y) :
    (runMerges numStr parseD batches).length ≤ 120 ∧
    ((runMerges numStr parseD batches).map (dedupKey numStr)).Nodup ∧
    (∀ p ∈ runMerges numStr parseD batches, p ∈ batches.flatten) ∧
    (∀ x ∈ batches.flatten,
      dedupKey numStr x ∉ (runMerges numStr parseD batches).map (dedupKey numStr) →
      ∀ p ∈ runMerges numStr parseD batches, tsOf parseD x ≤ tsOf parseD p) ∧
    ((runMerges numStr parseD batches).length < 120 →
      ∀ x ∈ batches.flatten,
        dedupKey numStr x ∈ (runMerges numStr parseD batches).map (dedupKey numStr)) := by
  induction batches using List.reverseRecOn with
  | nil =>
    refine ⟨by simp [runMerges], by simp [runMerges], ?_, ?_, ?_⟩
    · intro p hp
      simp [runMerges] at hp
    · intro x hx
      simp at hx
    · intro _ x hx
      simp at hx
  | append_singleton bs b ih =>
    have hmono : ∀ x : LivePoint α, x ∈ bs.flatten → x ∈ (bs ++ [b]).flatten := by
      intro x hx
      rw [List.flatten_append]
      exact List.mem_append_left _ hx
    have cohbs : ∀ x ∈ bs.flatten, ∀ y ∈ bs.flatten,
        dedupKey numStr x = dedupKey numStr y → tsOf parseD x = tsOf parseD y :=
      fun x hx y hy => coh x (hmono x hx) y (hmono y hy)
    obtain ⟨h1, h2, h3, h4, h5⟩ := ih cohbs
    have hrun : runMerges numStr parseD (bs ++ [b])
        = mergePoints numStr parseD (runMerges numStr parseD bs) b := by
      show (bs ++ [b]).foldl (mergePoints numStr parseD) []
        = mergePoints numStr parseD (bs.foldl (mergePoints numStr parseD) []) b
      rw [List.foldl_append]
      simp
    rw [hrun]
    exact mergeWindow_step numStr parseD bs b _ coh h1 h2 h3 h4 h5

/-- C6 (amended): after any finite sequence of merges, the history has
at most 120 points; every retained point was merged at some time; no
merged point whose key is absent from the history has a strictly later
parsed timestamp than any retained point (retained points are the most
recent, up to timestamp ties and up to deduplication by key); and while
the history is below the cap nothing has been evicted (every merged
key is present). The coherence hypothesis — any two merged points with
equal deduplication keys have equal parsed timestamps — is forced by
the counterexample, where deduplication against an unparseable twin of
the same key silently discards a late, recent point. -/
theorem C6_window_bound (batches : List (List (LivePoint α)))
    (coh : ∀ x ∈ batches.flatten, ∀ y ∈ batches.flatten,
      dedupKey numStr x = dedupKey numStr y → tsOf parseD x = tsOf parseD y) :
    (runMerges numStr parseD batches).length ≤ 120 ∧
    (∀ p ∈ runMerges numStr parseD batches, p ∈ batches.flatten) ∧
    (∀ x ∈ batches.flatten,
      dedupKey numStr x ∉ (runMerges numStr parseD batches).map (dedupKey numStr) →
      ∀ p ∈ runMerges numStr parseD batches, tsOf parseD x ≤ tsOf parseD p) ∧
    ((runMerges numStr parseD batches).length < 120 →
      ∀ x ∈ batches.flatten,
        dedupKey numStr x ∈ (runMerges numStr parseD batches).map (dedupKey numStr)) := by
  obtain ⟨h1, _, h3, h4, h5⟩ := runMerges_window numStr parseD batches coh
  exact ⟨h1, h3, h4, h5⟩

end WindowInvariant

/-- C6 (witness): the window bound evaluated at two concrete one-point
batches. -/
theorem C6_window_bound_witness :
    (∀ x ∈ [[(⟨"d", some "10", none, 1, 0, none⟩ : LivePoint Int)],
        [(⟨"d", some "20", none, 2, 0, none⟩ : LivePoint Int)]].flatten,
      ∀ y ∈ [[(⟨"d", some "10", none, 1, 0, none⟩ : LivePoint Int)],
        [(⟨"d", some "20", none, 2, 0, none⟩ : LivePoint Int)]].flatten,
        dedupKey toString x = dedupKey toString y → tsOf cexParse x = tsOf cexParse y) ∧
    (runMerges toString cexParse
      [[⟨"d", some "10", none, 1, 0, none⟩], [⟨"d", some "20", none, 2, 0, none⟩]]).length ≤ 120 :=
  ⟨by decide,
    (C6_window_bound toString cexParse
      [[⟨"d", some "10", none, 1, 0, none⟩], [⟨"d", some "20", none, 2, 0, none⟩]]
      (by decide)).1⟩

set_option maxRecDepth 100000 in
/-- A first batch of 120 points with parseable timestamps 100..219 and
pairwise distinct keys. -/
def parseableBatch : List (LivePoint Int) :=
  (List.range 120).map (fun i => ⟨"d", some (toString (100 + i)), none, 0, 0, none⟩)

set_option maxRecDepth 100000 in
/-- C6 (counterexample to the claim as stated): merge the 120-point
`parseableBatch`, then the batch `[unparseableTwin, lateArrival]` — the
deduplication drops `lateArrival` (same key string as the twin) and the
trim then evicts the unparseable twin as oldest; the resulting history
retains the point with timestamp 100 although the merged-and-evicted
`lateArrival` carries timestamp 999999, so the retained points are not
exactly the most recent ones ever merged. -/
theorem C6_counterexample_most_recent :
    lateArrival ∈ [parseableBatch, [unparseableTwin, lateArrival]].flatten ∧
    dedupKey toString lateArrival ∉
      (runMerges toString cexParse [parseableBatch, [unparseableTwin, lateArrival]]).map
        (dedupKey toString) ∧
    (⟨"d", some "100", none, 0, 0, none⟩ : LivePoint Int) ∈
      runMerges toString cexParse [parseableBatch, [unparseableTwin, lateArrival]] ∧
    tsOf cexParse (⟨"d", some "100", none, 0, 0, none⟩ : LivePoint Int)
      < tsOf cexParse lateArrival := by
  refine ⟨by decide, by decide, by decide, by decide⟩

/-! Claim C2: the reconnect backoff schedule and the terminal closed
state. -/

/-- C2: while retries remain, the n-th close event (with the retry
counter at `n`, 0-indexed) schedules exactly the delay
`min(1000 * 2^n, 30000)` milliseconds and emits `reconnecting`; after
the initial attempt and all ten retry attempts have failed (eleven
close events), the transport is in the terminal `closed` status with no
timer scheduled; and any further close event on an exhausted transport
stays `closed` and schedules nothing. -/
theorem C2_backoff_schedule :
    (∀ s : TransportState, s.retryCount < WS_MAX_RETRIES →
      onClose s
        = ⟨s.retryCount + 1, .reconnecting, some (min (1000 * 2 ^ s.retryCount) 30000)⟩) ∧
    onClose^[11] initialTransport = ⟨10, .closed, none⟩ ∧
    (∀ s : TransportState, WS_MAX_RETRIES ≤ s.retryCount →
      onClose s = { s with status := .closed, pendingDelay := none }) := by
  refine ⟨?_, by decide, ?_⟩
  · intro s hs
    rw [onClose, if_pos hs]
    rfl
  · intro s hs
    rw [onClose, if_neg (by omega)]

/-- C2 (witness): the schedule evaluated at retry counter 3 (delay
8000 ms) and at an exhausted transport. -/
theorem C2_backoff_schedule_witness :
    onClose ⟨3, .reconnecting, none⟩ = ⟨4, .reconnecting, some 8000⟩ ∧
    onClose ⟨10, .closed, none⟩ = ⟨10, .closed, none⟩ := by
  constructor
  · have h := C2_backoff_schedule.1 ⟨3, .reconnecting, none⟩ (by decide)
    rw [h]
    decide
  · have h := C2_backoff_schedule.2.2 ⟨10, .closed, none⟩ (by decide)
    rw [h]

/-! Claim C9: malformed frames are dropped without touching session
state. -/

/-- C9: a frame whose payload fails to parse leaves the session state
untouched for every message handler — in particular the connection
status and the per-device histories are unchanged — and a run that
starts with the malformed frame processes the remaining frames exactly
as if the malformed frame had never arrived. -/
theorem C9_malformed_frame_dropped {α : Type}
    (parse : String → Option (UplinkMsg α))
    (handle : SessionState α → UplinkMsg α → SessionState α)
    (st : SessionState α) (raw : String) (rest : List String)
    (hbad : parse raw = none) :
    onFrame parse handle st raw = st ∧
    (onFrame parse handle st raw).wsStatus = st.wsStatus ∧
    (onFrame parse handle st raw).pointsByDevice = st.pointsByDevice ∧
    runFrames parse handle st (raw :: rest) = runFrames parse handle st rest := by
  have h1 : onFrame parse handle st raw = st := by
    rw [onFrame, hbad]
  refine ⟨h1, by rw [h1], by rw [h1], ?_⟩
  rw [runFrames, runFrames, List.foldl_cons, h1]

/-- C9 (witness): a malformed frame in front of a well-formed uplink
frame, with the dashboard's `handleMessage` as the handler. -/
theorem C9_malformed_frame_dropped_witness :
    (fun s => if s = "good" then some (UplinkMsg.uplink
        (⟨"d", some "10", none, (1 : Int), 0, none⟩ : LivePoint Int)) else none) "bad"
      = none ∧
    onFrame (fun s => if s = "good" then some (UplinkMsg.uplink
        (⟨"d", some "10", none, (1 : Int), 0, none⟩ : LivePoint Int)) else none)
      (handleMessage (fun s => s))
      { wsStatus := .connected, pointsByDevice := [] } "bad"
      = { wsStatus := .connected, pointsByDevice := [] } ∧
    runFrames (fun s => if s = "good" then some (UplinkMsg.uplink
        (⟨"d", some "10", none, (1 : Int), 0, none⟩ : LivePoint Int)) else none)
      (handleMessage (fun s => s))
      { wsStatus := .connected, pointsByDevice := [] } ["bad", "good"]
      = runFrames (fun s => if s = "good" then some (UplinkMsg.uplink
        (⟨"d", some "10", none, (1 : Int), 0, none⟩ : LivePoint Int)) else none)
      (handleMessage (fun s => s))
      { wsStatus := .connected, pointsByDevice := [] } ["good"] := by
  refine ⟨by decide, ?_, ?_⟩
  · exact (C9_malformed_frame_dropped _ (handleMessage (fun s => s))
      { wsStatus := .connected, pointsByDevice := [] } "bad" ["good"] (by decide)).1
  · exact (C9_malformed_frame_dropped _ (handleMessage (fun s => s))
      { wsStatus := .connected, pointsByDevice := [] } "bad" ["good"] (by decide)).2.2.2

/-! Claims C7, C8 and C10: the motion classifier, guard by guard. -/

/-- C10: with at least three points, if any of the three most recent
points of the sorted history has a missing or unparseable timestamp
(parsed as 0), the classifier labels the device `unknown` rather than
`stationary`, even though zero timestamps sort to the earliest
positions. -/
theorem C10_zero_timestamp_unknown
    (parseD : String → Option Int) (now : Int) (pts : List (LivePoint ℝ))
    (p1 p2 p3 : LivePoint ℝ)
    (h3 : 3 ≤ pts.length)
    (hp1 : p1 = (sortByTs parseD pts).getD ((sortByTs parseD pts).length - 3) dfltPoint)
    (hp2 : p2 = (sortByTs parseD pts).getD ((sortByTs parseD pts).length - 2) dfltPoint)
    (hp3 : p3 = (sortByTs parseD pts).getD ((sortByTs parseD pts).length - 1) dfltPoint)
    (hzero : tsOf parseD p1 = 0 ∨ tsOf parseD p2 = 0 ∨ tsOf parseD p3 = 0) :
    motionForPts parseD now pts = .unknown := by
  simp only [motionForPts]
  rw [if_neg (by omega : ¬ pts.length < 3), ← hp1, ← hp2, ← hp3, if_pos hzero]

/-- C8: with at least three points whose three most recent have nonzero
parsed timestamps, a stale most recent point (older than the 5-minute
recency window) or a bad time gap (over 90 seconds, or non-positive)
makes the classifier label the device `stationary`, regardless of the
distances between the points. -/
theorem C8_stale_or_bad_gap_stationary
    (parseD : String → Option Int) (now : Int) (pts : List (LivePoint ℝ))
    (p1 p2 p3 : LivePoint ℝ)
    (h3 : 3 ≤ pts.length)
    (hp1 : p1 = (sortByTs parseD pts).getD ((sortByTs parseD pts).length - 3) dfltPoint)
    (hp2 : p2 = (sortByTs parseD pts).getD ((sortByTs parseD pts).length - 2) dfltPoint)
    (hp3 : p3 = (sortByTs parseD pts).getD ((sortByTs parseD pts).length - 1) dfltPoint)
    (ht1 : tsOf parseD p1 ≠ 0) (ht2 : tsOf parseD p2 ≠ 0) (ht3 : tsOf parseD p3 ≠ 0)
    (hbad : now - tsOf parseD p3 > RECENT_WINDOW_MS ∨
      tsOf parseD p2 - tsOf parseD p1 > MAX_GAP_MS ∨
      tsOf parseD p3 - tsOf parseD p2 > MAX_GAP_MS ∨
      tsOf parseD p2 - tsOf parseD p1 ≤ 0 ∨
      tsOf parseD p3 - tsOf parseD p2 ≤ 0) :
    motionForPts parseD now pts = .stationary := by
  simp only [motionForPts]
  rw [if_neg (by omega : ¬ pts.length < 3), ← hp1, ← hp2, ← hp3,
    if_neg (by push_neg; exact ⟨ht1, ht2, ht3⟩)]
  by_cases hstale : now - tsOf parseD p3 > RECENT_WINDOW_MS
  · rw [if_pos hstale]
  · rw [if_neg hstale, if_pos (by tauto)]

/-- With all guards passed, the classifier reduces to the threshold
test on the two segment distances and speeds. -/
theorem motionForPts_threshold_test
    (parseD : String → Option Int) (now : Int) (pts : List (LivePoint ℝ))
    (p1 p2 p3 : LivePoint ℝ)
    (h3 : 3 ≤ pts.length)
    (hp1 : p1 = (sortByTs parseD pts).getD ((sortByTs parseD pts).length - 3) dfltPoint)
    (hp2 : p2 = (sortByTs parseD pts).getD ((sortByTs parseD pts).length - 2) dfltPoint)
    (hp3 : p3 = (sortByTs parseD pts).getD ((sortByTs parseD pts).length - 1) dfltPoint)
    (ht1 : tsOf parseD p1 ≠ 0) (ht2 : tsOf parseD p2 ≠ 0) (ht3 : tsOf parseD p3 ≠ 0)
    (hrec : now - tsOf parseD p3 ≤ RECENT_WINDOW_MS)
    (hg12 : 0 < tsOf parseD p2 - tsOf parseD p1)
    (hg12m : tsOf parseD p2 - tsOf parseD p1 ≤ MAX_GAP_MS)
    (hg23 : 0 < tsOf parseD p3 - tsOf parseD p2)
    (hg23m : tsOf parseD p3 - tsOf parseD p2 ≤ MAX_GAP_MS) :
    motionForPts parseD now pts =
      if haversineMeters ⟨p1.lat, p1.lon⟩ ⟨p2.lat, p2.lon⟩ > MOVEMENT_THRESHOLD_M ∧
          haversineMeters ⟨p2.lat, p2.lon⟩ ⟨p3.lat, p3.lon⟩ > MOVEMENT_THRESHOLD_M ∧
          haversineMeters ⟨p1.lat, p1.lon⟩ ⟨p2.lat, p2.lon⟩ /
            (((tsOf parseD p2 - tsOf parseD p1 : Int) : ℝ) / 1000) > MIN_SPEED_MPS ∧
          haversineMeters ⟨p2.lat, p2.lon⟩ ⟨p3.lat, p3.lon⟩ /
            (((tsOf parseD p3 - tsOf parseD p2 : Int) : ℝ) / 1000) > MIN_SPEED_MPS
      then .moving else .stationary := by
  simp only [motionForPts]
  rw [if_neg (by omega : ¬ pts.length < 3), ← hp1, ← hp2, ← hp3,
    if_neg (by push_neg; exact ⟨ht1, ht2, ht3⟩),
    if_neg (not_lt.mpr hrec), if_neg (by omega)]

/-- C7: with at least three points whose three most recent have nonzero
parsed timestamps, a recent most recent point and two positive time
gaps of at most 90 seconds, the classifier labels the device `moving`
exactly when both consecutive haversine distances exceed the 25-meter
movement threshold and both segment speeds exceed the 0.6 m/s minimum
speed; otherwise `stationary`. -/
theorem C7_moving_iff_thresholds
    (parseD : String → Option Int) (now : Int) (pts : List (LivePoint ℝ))
    (p1 p2 p3 : LivePoint ℝ)
    (h3 : 3 ≤ pts.length)
    (hp1 : p1 = (sortByTs parseD pts).getD ((sortByTs parseD pts).length - 3) dfltPoint)
    (hp2 : p2 = (sortByTs parseD pts).getD ((sortByTs parseD pts).length - 2) dfltPoint)
    (hp3 : p3 = (sortByTs parseD pts).getD ((sortByTs parseD pts).length - 1) dfltPoint)
    (ht1 : tsOf parseD p1 ≠ 0) (ht2 : tsOf parseD p2 ≠ 0) (ht3 : tsOf parseD p3 ≠ 0)
    (hrec : now - tsOf parseD p3 ≤ RECENT_WINDOW_MS)
    (hg12 : 0 < tsOf parseD p2 - tsOf parseD p1)
    (hg12m : tsOf parseD p2 - tsOf parseD p1 ≤ MAX_GAP_MS)
    (hg23 : 0 < tsOf parseD p3 - tsOf parseD p2)
    (hg23m : tsOf parseD p3 - tsOf parseD p2 ≤ MAX_GAP_MS) :
    motionForPts parseD now pts =
      if haversineMeters ⟨p1.lat, p1.lon⟩ ⟨p2.lat, p2.lon⟩ > MOVEMENT_THRESHOLD_M ∧
          haversineMeters ⟨p2.lat, p2.lon⟩ ⟨p3.lat, p3.lon⟩ > MOVEMENT_THRESHOLD_M ∧
          haversineMeters ⟨p1.lat, p1.lon⟩ ⟨p2.lat, p2.lon⟩ /
            (((tsOf parseD p2 - tsOf parseD p1 : Int) : ℝ) / 1000) > MIN_SPEED_MPS ∧
          haversineMeters ⟨p2.lat, p2.lon⟩ ⟨p3.lat, p3.lon⟩ /
            (((tsOf parseD p3 - tsOf parseD p2 : Int) : ℝ) / 1000) > MIN_SPEED_MPS
      then .moving else .stationary :=
  motionForPts_threshold_test parseD now pts p1 p2 p3 h3 hp1 hp2 hp3
    ht1 ht2 ht3 hrec hg12 hg12m hg23 hg23m

/-- A classifier test point at the origin with the given timestamp
string. -/
def wPt (t : String) : LivePoint ℝ := ⟨"d", some t, none, 0, 0, none⟩

/-- A classifier test point with no timestamp at all. -/
def wZero : LivePoint ℝ := ⟨"d", none, none, 0, 0, none⟩

/-- C10 (witness): three points with missing timestamps are classified
`unknown`. -/
theorem C10_zero_timestamp_unknown_witness :
    (3 ≤ ([wZero, wZero, wZero] : List (LivePoint ℝ)).length) ∧
    (tsOf cexParse wZero = 0) ∧
    motionForPts cexParse 1000 [wZero, wZero, wZero] = .unknown := by
  refine ⟨by decide, by decide, ?_⟩
  exact C10_zero_timestamp_unknown cexParse 1000 [wZero, wZero, wZero]
    wZero wZero wZero (by decide) rfl rfl rfl (Or.inl (by decide))

/-- C8 (witness): three parseable points whose freshest sample is far
older than the recency window are classified `stationary`. -/
theorem C8_stale_or_bad_gap_stationary_witness :
    (tsOf cexParse (wPt "30000") ≠ 0) ∧
    ((1000000000 : Int) - tsOf cexParse (wPt "30000") > RECENT_WINDOW_MS) ∧
    motionForPts cexParse 1000000000 [wPt "10000", wPt "20000", wPt "30000"]
      = .stationary := by
  refine ⟨by decide, by decide, ?_⟩
  exact C8_stale_or_bad_gap_stationary cexParse 1000000000
    [wPt "10000", wPt "20000", wPt "30000"] (wPt "10000") (wPt "20000") (wPt "30000")
    (by decide) rfl rfl rfl (by decide) (by decide) (by decide)
    (Or.inl (by decide))

/-- C7 (witness): three recent parseable points with 10-second gaps;
the classifier's label is the threshold test evaluated at their
distances and speeds. -/
theorem C7_moving_iff_thresholds_witness :
    (tsOf cexParse (wPt "20000") - tsOf cexParse (wPt "10000") ≤ MAX_GAP_MS) ∧
    ((30000 : Int) - tsOf cexParse (wPt "30000") ≤ RECENT_WINDOW_MS) ∧
    motionForPts cexParse 30000 [wPt "10000", wPt "20000", wPt "30000"] =
      (if haversineMeters ⟨(wPt "10000").lat, (wPt "10000").lon⟩
            ⟨(wPt "20000").lat, (wPt "20000").lon⟩ > MOVEMENT_THRESHOLD_M ∧
          haversineMeters ⟨(wPt "20000").lat, (wPt "20000").lon⟩
            ⟨(wPt "30000").lat, (wPt "30000").lon⟩ > MOVEMENT_THRESHOLD_M ∧
          haversineMeters ⟨(wPt "10000").lat, (wPt "10000").lon⟩
            ⟨(wPt "20000").lat, (wPt "20000").lon⟩ /
            (((tsOf cexParse (wPt "20000") - tsOf cexParse (wPt "10000") : Int) : ℝ) / 1000)
            > MIN_SPEED_MPS ∧
          haversineMeters ⟨(wPt "20000").lat, (wPt "20000").lon⟩
            ⟨(wPt "30000").lat, (wPt "30000").lon⟩ /
            (((tsOf cexParse (wPt "30000") - tsOf cexParse (wPt "20000") : Int) : ℝ) / 1000)
            > MIN_SPEED_MPS
      then MotionState.moving else MotionState.stationary) := by
  refine ⟨by decide, by decide, ?_⟩
  exact C7_moving_iff_thresholds cexParse 30000
    [wPt "10000", wPt "20000", wPt "30000"] (wPt "10000") (wPt "20000") (wPt "30000")
    (by decide) rfl rfl rfl (by decide) (by decide) (by decide)
    (by decide) (by decide) (by decide) (by decide) (by decide)

/-! Claim C3: the concrete three-point, 60-second, 30-meter scenario. -/

/-- The latitude increment, in degrees, whose meridian arc is exactly
30 meters under the haversine formula with earth radius 6371000 m. -/
noncomputable def merDelta : ℝ := 5400 / (6371000 * Real.pi)

/-- Moving `merDelta` degrees north along a meridian is a haversine
distance of exactly 30 meters. -/
theorem haversineMeters_meridian (a : ℝ) :
    haversineMeters ⟨a, 0⟩ ⟨a + merDelta, 0⟩ = 30 := by
  have hπ : (0:ℝ) < Real.pi := Real.pi_pos
  have hπ3 : (3:ℝ) < Real.pi := Real.pi_gt_three
  have hπ0 : Real.pi ≠ 0 := ne_of_gt hπ
  simp only [haversineMeters]
  have h0 : ((0:ℝ) - 0) * Real.pi / 180 / 2 = 0 := by ring
  rw [h0, Real.sin_zero]
  have hx : (a + merDelta - a) * Real.pi / 180 / 2 = 15 / 6371000 := by
    rw [merDelta]
    field_simp
    ring
  rw [hx]
  simp only [mul_zero, zero_mul, add_zero]
  have hsin_nonneg : 0 ≤ Real.sin ((15 : ℝ) / 6371000) := by
    refine Real.sin_nonneg_of_nonneg_of_le_pi (by norm_num) ?_
    nlinarith
  rw [Real.sqrt_mul_self hsin_nonneg]
  rw [min_eq_right (Real.sin_le_one _)]
  rw [Real.arcsin_sin (by nlinarith) (by nlinarith)]
  norm_num

/-- A three-point history with consecutive timestamps 60 seconds apart,
consecutive haversine distances of exactly 30 meters, and a fresh most
recent point is classified `stationary`: both distances clear the 25 m
movement threshold but the segment speed is 30 m / 60 s = 0.5 m/s,
below the 0.6 m/s minimum speed. -/
theorem motion_sixty_thirty_stationary
    (parseD : String → Option Int) (now : Int) (p1 p2 p3 : LivePoint ℝ)
    (ht1 : tsOf parseD p1 ≠ 0) (ht2 : tsOf parseD p2 ≠ 0) (ht3 : tsOf parseD p3 ≠ 0)
    (h12 : tsOf parseD p2 = tsOf parseD p1 + 60000)
    (h23 : tsOf parseD p3 = tsOf parseD p2 + 60000)
    (hrec : now - tsOf parseD p3 ≤ RECENT_WINDOW_MS)
    (hd12 : haversineMeters ⟨p1.lat, p1.lon⟩ ⟨p2.lat, p2.lon⟩ = 30)
    (hd23 : haversineMeters ⟨p2.lat, p2.lon⟩ ⟨p3.lat, p3.lon⟩ = 30) :
    motionForPts parseD now [p1, p2, p3] = .stationary := by
  have hmax : MAX_GAP_MS = 90000 := rfl
  have hs : List.Sorted (fun a b => tsOf parseD a ≤ tsOf parseD b) [p1, p2, p3] := by
    refine List.sorted_cons.mpr ⟨?_, List.sorted_cons.mpr ⟨?_, List.sorted_singleton _⟩⟩
    · intro b hb
      rcases List.mem_cons.mp hb with rfl | hb
      · omega
      · rw [List.mem_singleton] at hb
        subst hb
        omega
    · intro b hb
      rw [List.mem_singleton] at hb
      subst hb
      omega
  have hsort : sortByTs parseD [p1, p2, p3] = [p1, p2, p3] :=
    sortByTs_of_sorted parseD hs
  have happ := motionForPts_threshold_test parseD now [p1, p2, p3] p1 p2 p3
    (by simp) (by rw [hsort]; rfl) (by rw [hsort]; rfl) (by rw [hsort]; rfl)
    ht1 ht2 ht3 hrec (by omega) (by omega) (by omega) (by omega)
  rw [happ, hd12, hd23, if_neg]
  rintro ⟨-, -, hv, -⟩
  rw [show tsOf parseD p2 - tsOf parseD p1 = (60000 : Int) from by omega,
    MIN_SPEED_MPS] at hv
  norm_num at hv

/-- C3 (amended): for any device history of exactly three points with
parseable timestamps 60 seconds apart, consecutive pairs exactly 30
meters apart, and the most recent point within the recency window, the
classifier labels the device `stationary`, not `moving`: the segment
speed 0.5 m/s does not exceed the 0.6 m/s minimum speed threshold. -/
theorem C3_sixty_thirty_classified_stationary
    (parseD : String → Option Int) (now : Int) (p1 p2 p3 : LivePoint ℝ)
    (ht1 : tsOf parseD p1 ≠ 0) (ht2 : tsOf parseD p2 ≠ 0) (ht3 : tsOf parseD p3 ≠ 0)
    (h12 : tsOf parseD p2 = tsOf parseD p1 + 60000)
    (h23 : tsOf parseD p3 = tsOf parseD p2 + 60000)
    (hrec : now - tsOf parseD p3 ≤ RECENT_WINDOW_MS)
    (hd12 : haversineMeters ⟨p1.lat, p1.lon⟩ ⟨p2.lat, p2.lon⟩ = 30)
    (hd23 : haversineMeters ⟨p2.lat, p2.lon⟩ ⟨p3.lat, p3.lon⟩ = 30) :
    motionForPts parseD now [p1, p2, p3] = .stationary :=
  motion_sixty_thirty_stationary parseD now p1 p2 p3 ht1 ht2 ht3 h12 h23 hrec hd12 hd23

/-- The date parser of the C3 scenario: three known timestamp strings
at 60000, 120000 and 180000 milliseconds. -/
def merParse : String → Option Int := fun s =>
  if s = "a" then some 60000
  else if s = "b" then some 120000
  else if s = "c" then some 180000
  else none

/-- First scenario point, at the origin. -/
def merPoint1 : LivePoint ℝ := ⟨"d", some "a", none, 0, 0, none⟩

/-- Second scenario point, 30 meters due north, 60 seconds later. -/
noncomputable def merPoint2 : LivePoint ℝ := ⟨"d", some "b", none, merDelta, 0, none⟩

/-- Third scenario point, another 30 meters north, 60 seconds later. -/
noncomputable def merPoint3 : LivePoint ℝ := ⟨"d", some "c", none, merDelta + merDelta, 0, none⟩

/-- The two consecutive haversine distances of the scenario are exactly
30 meters. -/
theorem merPoints_distances :
    haversineMeters ⟨merPoint1.lat, merPoint1.lon⟩ ⟨merPoint2.lat, merPoint2.lon⟩ = 30 ∧
    haversineMeters ⟨merPoint2.lat, merPoint2.lon⟩ ⟨merPoint3.lat, merPoint3.lon⟩ = 30 := by
  constructor
  · have h := haversineMeters_meridian 0
    rw [zero_add] at h
    exact h
  · exact haversineMeters_meridian merDelta

/-- C3 (witness for the amended claim): the meridian instance, with
every hypothesis discharged concretely. -/
theorem C3_sixty_thirty_classified_stationary_witness :
    motionForPts merParse 180000 [merPoint1, merPoint2, merPoint3] = .stationary :=
  C3_sixty_thirty_classified_stationary merParse 180000 merPoint1 merPoint2 merPoint3
    (by decide) (by decide) (by decide) (by decide) (by decide) (by decide)
    merPoints_distances.1 merPoints_distances.2

/-- C3 (counterexample to the claim as stated): the meridian scenario
satisfies every hypothesis of the claim — three points, timestamps 60
seconds apart, consecutive pairs exactly 30 meters apart, most recent
point current — yet the classifier does not label the device `moving`
(it labels it `stationary`, as the segment speed 0.5 m/s is below the
0.6 m/s minimum). -/
theorem C3_counterexample_sixty_thirty_not_moving :
    haversineMeters ⟨merPoint1.lat, merPoint1.lon⟩ ⟨merPoint2.lat, merPoint2.lon⟩ = 30 ∧
    haversineMeters ⟨merPoint2.lat, merPoint2.lon⟩ ⟨merPoint3.lat, merPoint3.lon⟩ = 30 ∧
    tsOf merParse merPoint2 = tsOf merParse merPoint1 + 60000 ∧
    tsOf merParse merPoint3 = tsOf merParse merPoint2 + 60000 ∧
    tsOf merParse merPoint1 ≠ 0 ∧
    (180000 : Int) - tsOf merParse merPoint3 ≤ RECENT_WINDOW_MS ∧
    motionForPts merParse 180000 [merPoint1, merPoint2, merPoint3] ≠ .moving := by
  have hstat : motionForPts merParse 180000 [merPoint1, merPoint2, merPoint3] = .stationary :=
    motion_sixty_thirty_stationary merParse 180000 merPoint1 merPoint2 merPoint3
      (by decide) (by decide) (by decide) (by decide) (by decide) (by decide)
      merPoints_distances.1 merPoints_distances.2
  refine ⟨merPoints_distances.1, merPoints_distances.2, by decide, by decide, by decide,
    by decide, ?_⟩
  rw [hstat]
  decide

end RangeHerd
